import Mathlib

/-!
Verification of the `enrol` webhook endpoints:
`src/app/api/submission/route.ts` (submission queue: POST/GET/DELETE/HEAD/OPTIONS)
and `src/app/api/webhook/participants/teams/update/route.ts` (team update merger).

Shallow embedding conventions:
* JSON values are the inductive `Js`; JavaScript's `undefined` is represented by
  `Option Js` (`none` = absent property / `undefined`).  Assigning `undefined` to a
  property is modelled as deleting the key, which is observationally equivalent for
  this code (every read is `=== undefined`-style or truthiness, and
  `JSON.stringify` drops `undefined`-valued properties).
* Property access that throws a `TypeError` in JavaScript (reading a property of
  `null`/`undefined`, calling a missing method) is modelled with `Except Unit`.
* JSON numbers are modelled as integers (no fraction/exponent); every payload this
  service handles uses string and integer values only.
* HMAC-SHA256 signature verification is an external crypto primitive; the handlers
  only branch on its boolean outcome, so it is modelled as a `sigOk : Bool` input.
* The Redis list store: `lpush` prepends (head of the Lean list = left end of the
  Redis list), `lrange 0 -1` reads the whole list left to right, `lrem key 1 v`
  removes the first occurrence of `v` scanning left to right (`List.erase`).
-/

/-- A JSON value (JavaScript numbers restricted to integers). -/
inductive Js where
  | null : Js
  | bool : Bool → Js
  | num : Int → Js
  | str : String → Js
  | arr : List Js → Js
  | obj : List (String × Js) → Js
deriving Inhabited

/-- First value bound to a key in an object's member list (members produced by
`parse` have pairwise distinct keys, see `objSet`). -/
def objLookup : List (String × Js) → String → Option Js
  | [], _ => none
  | (k, v) :: rest, q => if k == q then some v else objLookup rest q

/-- JavaScript property assignment on an object member list: if the key exists its
value is updated in place (insertion position kept), otherwise the pair is
appended. -/
def objSet : List (String × Js) → String → Js → List (String × Js)
  | [], q, x => [(q, x)]
  | (k, v) :: rest, q, x => if k == q then (k, x) :: rest else (k, v) :: objSet rest q x

/-- Remove a key from an object member list (models assigning `undefined`, which
`JSON.stringify` and every read in this code treat as absence).  All bindings of
the key are removed: a JavaScript object never holds a key twice. -/
def objDel : List (String × Js) → String → List (String × Js)
  | [], _ => []
  | (k, v) :: rest, q => if k == q then objDel rest q else (k, v) :: objDel rest q

/-- Property read `v.k` on a receiver that is known not to be `null`: objects are
looked up, primitives yield `undefined` (`none`). -/
def jsMemT : Js → String → Option Js
  | .obj kvs, k => objLookup kvs k
  | _, _ => none

/-- Property read `v.k` including the JavaScript `TypeError` on a `null`
receiver. -/
def jsGetE : Js → String → Except Unit (Option Js)
  | .null, _ => .error ()
  | v, k => .ok (jsMemT v k)

/-- Property read on a possibly-`undefined` receiver (`undefined.k` throws). -/
def stepE : Option Js → String → Except Unit (Option Js)
  | none, _ => .error ()
  | some v, k => jsGetE v k

/-- Optional-chained read `v?.k`: `undefined`/`null`/primitive receivers give
`undefined`, objects are looked up; never throws. -/
def jsChain : Option Js → String → Option Js
  | some (.obj kvs), k => objLookup kvs k
  | _, _ => none

/-- Two-step optional chain `v.k1?.k2` on a non-null receiver
(`record.data?.submissionId`). -/
def jsChain2 (v : Js) (k1 k2 : String) : Option Js :=
  jsChain (jsMemT v k1) k2

/-- JavaScript property assignment `v.k = x` (no-op on non-objects, as in
non-strict mode). -/
def jsSet : Js → String → Js → Js
  | .obj kvs, k, x => .obj (objSet kvs k x)
  | v, _, _ => v

/-- Property assignment with a possibly-`undefined` right-hand side: assigning
`undefined` is modelled as deleting the key (see the header comment). -/
def jsSetOpt (v : Js) (k : String) (x : Option Js) : Js :=
  match v, x with
  | .obj kvs, some y => .obj (objSet kvs k y)
  | .obj kvs, none => .obj (objDel kvs k)
  | w, _ => w

/-- JavaScript truthiness of a value. -/
def jsTruthy : Js → Bool
  | .null => false
  | .bool b => b
  | .num n => n != 0
  | .str s => !s.isEmpty
  | .arr _ => true
  | .obj _ => true

/-- Truthiness of a possibly-`undefined` value (`undefined` is falsy). -/
def jsTruthyO : Option Js → Bool
  | none => false
  | some v => jsTruthy v

/-- JavaScript strict equality `===` restricted to values that come from separate
`JSON.parse` calls: primitives compare by value; two objects or arrays are never
the same reference, hence never strictly equal. -/
def jsStrictEq : Js → Js → Bool
  | .null, .null => true
  | .bool a, .bool b => a == b
  | .num a, .num b => a == b
  | .str a, .str b => a == b
  | _, _ => false

/-- Strict equality where either side may be `undefined`
(`undefined === undefined` is true). -/
def optStrictEq : Option Js → Option Js → Bool
  | none, none => true
  | some a, some b => jsStrictEq a b
  | _, _ => false

/-! ### JavaScript string primitives -/

/-- White space for JavaScript's `\s`, `String.prototype.trim` and the regex in
`normalizePhone` (ECMAScript WhiteSpace and LineTerminator code points), on the
character's code point. -/
def wsNat (n : Nat) : Bool :=
  n == 32 || n == 9 || n == 10 || n == 13 ||
  n == 0x0B || n == 0x0C || n == 0xA0 || n == 0x1680 ||
  (0x2000 ≤ n && n ≤ 0x200A) ||
  n == 0x2028 || n == 0x2029 || n == 0x202F ||
  n == 0x205F || n == 0x3000 || n == 0xFEFF

/-- Whether a character is JavaScript white space. -/
def isJsWs (c : Char) : Bool := wsNat c.toNat

/-- ASCII lower-casing of one character (the labels and emails this service
compares are ASCII; `toLowerCase` is modelled on that range). -/
def lowerChar (c : Char) : Char :=
  if 65 ≤ c.toNat ∧ c.toNat ≤ 90 then Char.ofNat (c.toNat + 32) else c

/-- `String.prototype.trim` on the character list: drop white space from both
ends. -/
def trimList (l : List Char) : List Char :=
  ((l.dropWhile isJsWs).reverse.dropWhile isJsWs).reverse

/-- `s.toLowerCase()`. -/
def strLower (s : String) : String := ⟨s.data.map lowerChar⟩

/-- `s.trim()`. -/
def strTrim (s : String) : String := ⟨trimList s.data⟩

/-- `s.replace(/\s+/g, '')`: remove every white-space character. -/
def strStripWs (s : String) : String := ⟨s.data.filter (fun c => !isJsWs c)⟩

/-- Whether `pat` is a prefix of `l` (character lists). -/
def listStartsWith : List Char → List Char → Bool
  | [], _ => true
  | _ :: _, [] => false
  | p :: ps, c :: cs => p == c && listStartsWith ps cs

/-- Whether `pat` occurs contiguously in `hay` (character lists). -/
def listContains (hay pat : List Char) : Bool :=
  listStartsWith pat hay ||
    match hay with
    | [] => false
    | _ :: rest => listContains rest pat

/-- `s.includes(pat)`: contiguous substring test. -/
def strContains (s pat : String) : Bool := listContains s.data pat.data

/-- Decimal digits of a natural number, least significant first (fuel-recursive
so that the kernel can evaluate it). -/
def natDigitsAux : Nat → Nat → List Char
  | 0, _ => []
  | _ + 1, 0 => []
  | fuel + 1, n => Char.ofNat (48 + n % 10) :: natDigitsAux fuel (n / 10)

/-- Decimal representation of a natural number. -/
def natToStr (n : Nat) : String :=
  if n == 0 then "0" else ⟨(natDigitsAux (n + 1) n).reverse⟩

/-- Decimal representation of an integer (JavaScript `String(n)` for integral
numbers). -/
def intToStr : Int → String
  | .ofNat n => natToStr n
  | .negSucc m => "-" ++ natToStr (m + 1)

/-! ### Field extraction and normalization
(`teams/update/route.ts` lines 9-61). -/

/-- Source `normalizeEmail` (route lines 20-23): non-strings and the empty string
give `""`, otherwise lower-case then trim.  The argument is the raw field value,
hence `Js`. -/
def normalizeEmail : Js → String
  | .str s => if s.isEmpty then "" else strTrim (strLower s)
  | _ => ""

/-- Source `normalizePhone` (route lines 28-32): non-strings and the empty string
give `""`, otherwise remove all white space, then trim. -/
def normalizePhone : Js → String
  | .str s => if s.isEmpty then "" else strTrim (strStripWs s)
  | _ => ""

/-- The predicate of `findFieldByLabel` (route line 14):
`field?.label?.includes(label)`.  A `null` field or a missing/`null` label short
circuits to falsy; a string label does the substring test; an array label has an
`includes` method testing membership; any other label value has no `includes`
method, so the call throws. -/
def fieldLabelMatchesE (q : String) (f : Js) : Except Unit Bool :=
  match f with
  | .obj kvs =>
    match objLookup kvs "label" with
    | none => .ok false
    | some .null => .ok false
    | some (.str s) => .ok (strContains s q)
    | some (.arr xs) => .ok (xs.any (fun x => jsStrictEq x (.str q)))
    | some _ => .error ()
  | _ => .ok false

/-- `Array.prototype.find` with a predicate that may throw; `undefined` (no
match) and the `|| null` fallback both map to `none`. -/
def findFirstE : List Js → (Js → Except Unit Bool) → Except Unit (Option Js)
  | [], _ => .ok none
  | f :: rest, p =>
    match p f with
    | .error e => .error e
    | .ok true => .ok (some f)
    | .ok false => findFirstE rest p

/-- Source `findFieldByLabel` (route lines 12-15) specialised to an actual array
argument. -/
def findFieldByLabelL (fields : List Js) (q : String) : Except Unit (Option Js) :=
  findFirstE fields (fieldLabelMatchesE q)

/-- Source `findFieldByLabel` (route lines 12-15): `null` for a missing, `null`
or non-array `fields` argument, else the first field whose label matches. -/
def findFieldByLabel (fields : Option Js) (q : String) : Except Unit (Option Js) :=
  match fields with
  | some (.arr l) => findFieldByLabelL l q
  | _ => .ok none

/-- Source `extractTeamMemberPairs` (route lines 38-61): for i = 1..9 look up the
fields labelled "i: Email" and "i: Phone number"; when both values are truthy and
both normalizations non-empty, emit the normalized pair. -/
def extractTeamMemberPairs (record : Js) : Except Unit (List (String × String)) :=
  match jsChain2 record "data" "fields" with
  | some (.arr l) =>
    [1, 2, 3, 4, 5, 6, 7, 8, 9].foldlM (fun acc i => do
      let emailField ← findFieldByLabelL l (natToStr i ++ ": Email")
      let phoneField ← findFieldByLabelL l (natToStr i ++ ": Phone number")
      if jsTruthyO (jsChain emailField "value") && jsTruthyO (jsChain phoneField "value") then
        let email := normalizeEmail ((jsChain emailField "value").getD .null)
        let phone := normalizePhone ((jsChain phoneField "value").getD .null)
        if !email.isEmpty && !phone.isEmpty then pure (acc ++ [(email, phone)]) else pure acc
      else pure acc) []
  | _ => .ok []

/-! ### JSON.parse and JSON.stringify -/

/-- Hexadecimal digit value. -/
def hexVal (c : Char) : Option Nat :=
  if 48 ≤ c.toNat && c.toNat ≤ 57 then some (c.toNat - 48)
  else if 97 ≤ c.toNat && c.toNat ≤ 102 then some (c.toNat - 87)
  else if 65 ≤ c.toNat && c.toNat ≤ 70 then some (c.toNat - 55)
  else none

/-- Skip JSON white space (space, tab, line feed, carriage return). -/
def skipJsonWs : List Char → List Char
  | c :: cs => if c == ' ' || c == '\t' || c == '\n' || c == '\r' then skipJsonWs cs else c :: cs
  | [] => []

/-- Body of a JSON string after the opening quote: returns the decoded
characters and the input after the closing quote.  Escape sequences are decoded;
`\uXXXX` for a surrogate code unit is rejected (the model has no lone
surrogates); unescaped control characters are rejected as in JSON. -/
def parseStringBody : List Char → Option (List Char × List Char)
  | [] => none
  | '"' :: rest => some ([], rest)
  | '\\' :: e :: rest =>
    if e == 'u' then
      match rest with
      | a :: b :: c :: d :: rest' => do
        let va ← hexVal a
        let vb ← hexVal b
        let vc ← hexVal c
        let vd ← hexVal d
        let n := ((va * 16 + vb) * 16 + vc) * 16 + vd
        if 0xD800 ≤ n && n ≤ 0xDFFF then none
        else do
          let (s, r) ← parseStringBody rest'
          pure (Char.ofNat n :: s, r)
      | _ => none
    else do
      let c ← if e == '"' then some '"'
        else if e == '\\' then some '\\'
        else if e == '/' then some '/'
        else if e == 'b' then some (Char.ofNat 8)
        else if e == 'f' then some (Char.ofNat 12)
        else if e == 'n' then some '\n'
        else if e == 'r' then some '\r'
        else if e == 't' then some '\t'
        else none
      let (s, r) ← parseStringBody rest
      pure (c :: s, r)
  | c :: rest =>
    if c.toNat < 0x20 then none
    else do
      let (s, r) ← parseStringBody rest
      pure (c :: s, r)

/-- Value of a list of decimal digit characters. -/
def digitsVal (l : List Char) : Nat :=
  l.foldl (fun acc c => acc * 10 + (c.toNat - 48)) 0

/-- Parse a JSON integer literal (optional minus, digits, no redundant leading
zero).  Fractions and exponents are outside the model (see the header). -/
def parseNum (l : List Char) : Option (Js × List Char) :=
  let core : List Char → Option (Int × List Char) := fun l' =>
    let ds := l'.takeWhile Char.isDigit
    let rest := l'.dropWhile Char.isDigit
    match ds with
    | [] => none
    | [_] => some ((digitsVal ds : Int), rest)
    | d :: _ :: _ => if d == '0' then none else some ((digitsVal ds : Int), rest)
  match l with
  | '-' :: rest => (core rest).map (fun (n, r) => (Js.num (-n), r))
  | _ => (core l).map (fun (n, r) => (Js.num n, r))

mutual

/-- Recursive-descent JSON value parser (fuel bounds the recursion depth; `parse`
supplies more than enough). -/
def parseVal : Nat → List Char → Option (Js × List Char)
  | 0, _ => none
  | fuel + 1, l =>
    match skipJsonWs l with
    | 'n' :: 'u' :: 'l' :: 'l' :: rest => some (.null, rest)
    | 't' :: 'r' :: 'u' :: 'e' :: rest => some (.bool true, rest)
    | 'f' :: 'a' :: 'l' :: 's' :: 'e' :: rest => some (.bool false, rest)
    | '"' :: rest =>
      match parseStringBody rest with
      | some (s, r) => some (.str ⟨s⟩, r)
      | none => none
    | '[' :: rest =>
      match skipJsonWs rest with
      | ']' :: r => some (.arr [], r)
      | r =>
        match parseElems fuel r with
        | some (xs, r') => some (.arr xs, r')
        | none => none
    | c :: rest =>
      if c == Char.ofNat 123 then
        match skipJsonWs rest with
        | c2 :: r =>
          if c2 == Char.ofNat 125 then some (.obj [], r)
          else
            match parseMembers fuel (c2 :: r) with
            | some (kvs, r') => some (.obj kvs, r')
            | none => none
        | [] => none
      else parseNum (c :: rest)
    | [] => none

/-- Comma-separated JSON array elements up to the closing bracket. -/
def parseElems : Nat → List Char → Option (List Js × List Char)
  | 0, _ => none
  | fuel + 1, l =>
    match parseVal fuel l with
    | some (v, r) =>
      match skipJsonWs r with
      | ',' :: r2 =>
        match parseElems fuel r2 with
        | some (xs, r3) => some (v :: xs, r3)
        | none => none
      | ']' :: r2 => some ([v], r2)
      | _ => none
    | none => none

/-- Comma-separated JSON object members up to the closing brace; a repeated key
keeps the last value at the first key's position, as in JavaScript. -/
def parseMembers : Nat → List Char → Option (List (String × Js) × List Char)
  | 0, _ => none
  | fuel + 1, l =>
    match skipJsonWs l with
    | '"' :: kr =>
      match parseStringBody kr with
      | some (k, r) =>
        match skipJsonWs r with
        | ':' :: r2 =>
          match parseVal fuel r2 with
          | some (v, r3) =>
            match skipJsonWs r3 with
            | c :: r4 =>
              if c == ',' then
                match parseMembers fuel r4 with
                | some (kvs, r5) =>
                  -- JavaScript duplicate-key semantics: the key sits at its first
                  -- occurrence's position but carries the last value.
                  match objLookup kvs ⟨k⟩ with
                  | some v' => some ((⟨k⟩, v') :: objDel kvs ⟨k⟩, r5)
                  | none => some ((⟨k⟩, v) :: kvs, r5)
                | none => none
              else if c == Char.ofNat 125 then some ([(⟨k⟩, v)], r4)
              else none
            | [] => none
          | none => none
        | _ => none
      | none => none
    | _ => none

end

/-- JSON.parse: parse one value, allow surrounding white space, demand the whole
input be consumed; `none` models the thrown `SyntaxError`. -/
def parse (s : String) : Option Js :=
  match parseVal (2 * s.data.length + 8) s.data with
  | some (v, r) => if (skipJsonWs r).isEmpty then some v else none
  | none => none

/-- Escape one character for a JSON string literal as `JSON.stringify` does. -/
def escChar (c : Char) : String :=
  if c == '"' then "\\\""
  else if c == '\\' then "\\\\"
  else if c == '\n' then "\\n"
  else if c == '\r' then "\\r"
  else if c == '\t' then "\\t"
  else if c.toNat == 8 then "\\b"
  else if c.toNat == 12 then "\\f"
  else if c.toNat < 0x20 then
    "\\u00" ++ ⟨[if c.toNat / 16 < 10 then Char.ofNat (48 + c.toNat / 16)
                 else Char.ofNat (87 + c.toNat / 16),
                 if c.toNat % 16 < 10 then Char.ofNat (48 + c.toNat % 16)
                 else Char.ofNat (87 + c.toNat % 16)]⟩
  else String.singleton c

/-- A JSON string literal for `s`. -/
def quoteStr (s : String) : String :=
  "\"" ++ String.join (s.data.map escChar) ++ "\""

mutual

/-- JSON.stringify on a value that contains no `undefined` (our `Js` cannot):
compact output, object members in insertion order. -/
def stringify : Js → String
  | .null => "null"
  | .bool true => "true"
  | .bool false => "false"
  | .num n => intToStr n
  | .str s => quoteStr s
  | .arr xs => "[" ++ stringifyElems xs ++ "]"
  | .obj kvs => "\x7b" ++ stringifyMembers kvs ++ "\x7d"

/-- Comma-separated serializations of array elements. -/
def stringifyElems : List Js → String
  | [] => ""
  | [x] => stringify x
  | x :: y :: rest => stringify x ++ "," ++ stringifyElems (y :: rest)

/-- Comma-separated serializations of object members. -/
def stringifyMembers : List (String × Js) → String
  | [] => ""
  | [(k, v)] => quoteStr k ++ ":" ++ stringify v
  | (k, v) :: m :: rest => quoteStr k ++ ":" ++ stringify v ++ "," ++ stringifyMembers (m :: rest)

end

/-! ### String() coercion (used on the Team ID value, route line 112) -/

mutual

/-- JavaScript `String(v)` for JSON values: primitives print their value, arrays
join their elements with commas, plain objects print "[object Object]". -/
def jsToString : Js → String
  | .null => "null"
  | .bool true => "true"
  | .bool false => "false"
  | .num n => intToStr n
  | .str s => s
  | .arr xs => jsToStringElems xs
  | .obj _ => "[object Object]"

/-- `Array.prototype.join(',')`: a `null` element prints as the empty string. -/
def jsToStringElems : List Js → String
  | [] => ""
  | [x] => match x with | .null => "" | y => jsToString y
  | x :: y :: rest =>
    (match x with | .null => "" | z => jsToString z) ++ "," ++ jsToStringElems (y :: rest)

end

/-! ### HTTP responses and the list store -/

/-- An HTTP response: status code and body text.  For 500 responses produced by
an uncaught or re-thrown exception the body carries an engine-specific error
message, which is not modelled (no claim reads it). -/
structure Response where
  status : Nat
  body : String
deriving DecidableEq

/-- The two Redis lists the service writes, left end (`lpush` target) first. -/
structure Store where
  submissions : List String
  teams : List String
deriving DecidableEq

def respOk : Response := ⟨200, "\x7b\"status\":\"ok\"\x7d"⟩
def respInvalidSig : Response := ⟨401, "Invalid signature."⟩
def respInvalidJson : Response := ⟨400, "Invalid JSON"⟩
def internalError : Response := ⟨500, ""⟩
def respMissingEventId : Response := ⟨400, "\x7b\"error\":\"Missing eventId\"\x7d"⟩
def respEventNotFound : Response := ⟨404, "\x7b\"error\":\"Event not found\"\x7d"⟩
def respDeleteSuccess : Response := ⟨200, "\x7b\"success\":true\x7d"⟩
def respGetFailed : Response := ⟨500, "\x7b\"error\":\"Failed to fetch from Redis\"\x7d"⟩
def respBadStructure : Response := ⟨400, "Invalid payload structure"⟩
def respMissingContact : Response := ⟨400, "Missing required fields: email and phone"⟩
def respMissingTeamId : Response := ⟨400, "Missing required field: Team ID"⟩
def respPrevNotFound : Response := ⟨404, "Previous record not found"⟩
def respUnauthorized : Response := ⟨403, "Unauthorized: email-phone pair not found in team members"⟩

/-! ### Submission route (`src/app/api/submission/route.ts`) -/

/-- Whether the logging line 54, `json.eventType` and `json.data.formName`,
evaluates without a `TypeError`: `json` must be an object whose `data` member
exists and is not `null` (otherwise `.formName` is read off `undefined`/`null`,
or `.eventType` off a non-object primitive/`null`). -/
def logLineOk : Js → Bool
  | .obj kvs =>
    match objLookup kvs "data" with
    | some .null => false
    | some _ => true
    | none => false
  | _ => false

/-- Submission `POST` (route lines 31-61): 401 on a bad signature, 400 on
unparseable JSON, then `lpush` of `JSON.stringify(json)` onto
`enrolment-submissions`; the success log line runs after the push and its
`TypeError` is caught by the outer handler, yielding 500 with the push already
made. -/
def submissionPOST (sigOk : Bool) (raw : String) (st : Store) : Response × Store :=
  if !sigOk then (respInvalidSig, st)
  else
    match parse raw with
    | none => (respInvalidJson, st)
    | some json =>
      let st' := { st with submissions := stringify json :: st.submissions }
      if logLineOk json then (respOk, st') else (internalError, st')

/-- Whether one stored entry survives the `GET` pipeline: `JSON.parse` must
succeed and the comparator's `a.createdAt` read must not throw (a `null` entry
throws). -/
def getEntryOk (raw : String) : Bool :=
  match parse raw with
  | none => false
  | some .null => false
  | some _ => true

/-- Submission `GET` (route lines 73-95): reads the whole list, 500 if any entry
fails to parse or is `null`, otherwise 200.  The sorted body is not modelled (no
claim reads it); the store is never written. -/
def submissionGET (st : Store) : Response × Store :=
  if st.submissions.all getEntryOk then (⟨200, ""⟩, st) else (respGetFailed, st)

/-- The `DELETE` scan (route lines 113-127): first raw entry whose parsed
`eventId` is strictly equal to the requested one; entries that fail to parse, or
parse to `null` (whose `.eventId` read throws), are caught, logged and
skipped. -/
def findDeleteTarget : List String → Js → Option String
  | [], _ => none
  | raw :: rest, e =>
    match parse raw with
    | none => findDeleteTarget rest e
    | some .null => findDeleteTarget rest e
    | some p => if optStrictEq (jsMemT p "eventId") (some e) then some raw else findDeleteTarget rest e

/-- Submission `DELETE` (route lines 97-143): `req.json()` rejecting, or
destructuring a `null` body, throws outside the `try`, hence 500; a falsy
`eventId` gives 400; no match gives 404; a match removes one occurrence of the
raw value (`lrem key 1 value` = `List.erase`) and gives 200. -/
def submissionDELETE (raw : String) (st : Store) : Response × Store :=
  match parse raw with
  | none => (internalError, st)
  | some .null => (internalError, st)
  | some body =>
    match jsMemT body "eventId" with
    | none => (respMissingEventId, st)
    | some e =>
      if !jsTruthy e then (respMissingEventId, st)
      else
        match findDeleteTarget st.submissions e with
        | none => (respEventNotFound, st)
        | some target => (respDeleteSuccess, { st with submissions := st.submissions.erase target })

/-! ### Team update route (`src/app/api/webhook/participants/teams/update/route.ts`) -/

/-- Validation and extraction before the store lookup (route lines 86-113):
either an early 400 response, or the update's field array, the submitter's
normalized email and phone, and the string-coerced Team ID. -/
def teamsPrelude (json : Js) : Except Unit (Sum Response (List Js × String × String × String)) := do
  -- line 86: `!json.data || !json.data.fields || !Array.isArray(json.data.fields)`
  let dataOpt ← jsGetE json "data"
  if !jsTruthyO dataOpt then return .inl respBadStructure
  let fieldsOpt ← stepE dataOpt "fields"
  if !jsTruthyO fieldsOpt then return .inl respBadStructure
  match fieldsOpt with
  | some (.arr fields) => do
    -- lines 92-101
    let emailF ← findFieldByLabelL fields "Email of person filling this form"
    let phoneF ← findFieldByLabelL fields "Phone number of person filling this form"
    if !jsTruthyO (jsChain emailF "value") || !jsTruthyO (jsChain phoneF "value") then
      return .inl respMissingContact
    let submitterEmail := normalizeEmail ((jsChain emailF "value").getD .null)
    let submitterPhone := normalizePhone ((jsChain phoneF "value").getD .null)
    -- lines 105-112
    let teamF ← findFieldByLabelL fields "Team ID"
    if !jsTruthyO (jsChain teamF "value") then return .inl respMissingTeamId
    let sid := jsToString ((jsChain teamF "value").getD .null)
    return .inr (fields, submitterEmail, submitterPhone, sid)
  | _ => return .inl respBadStructure

/-- Route lines 128-129: `record.data?.submissionId === previousSubmissionId ||
record.data?.responseId === previousSubmissionId`. -/
def recordMatches (record : Js) (sid : String) : Bool :=
  optStrictEq (jsChain2 record "data" "submissionId") (some (.str sid)) ||
  optStrictEq (jsChain2 record "data" "responseId") (some (.str sid))

/-- The lookup scan (route lines 121-137): first parsed record that matches;
entries that fail to parse, or parse to `null` (whose `.data` read throws), are
caught, logged and skipped. -/
def findPreviousRecord : List String → String → Option Js
  | [], _ => none
  | raw :: rest, sid =>
    match parse raw with
    | none => findPreviousRecord rest sid
    | some .null => findPreviousRecord rest sid
    | some record =>
      if recordMatches record sid then some record else findPreviousRecord rest sid

/-- The value-overwrite condition of route line 181:
`!== null && !== undefined && !== ''` (the `undefined` case is the `none` branch
at the call site). -/
def valueProvided : Js → Bool
  | .null => false
  | .str s => !s.isEmpty
  | _ => true

/-- Route lines 178-194 applied to the matched existing field `f`: overwrite
`value` only when provided, always assign `key` (possibly `undefined`), assign
`type` and `options` only when truthy. -/
def updateExistingField (f uf : Js) : Js :=
  let f1 :=
    match jsMemT uf "value" with
    | some v => if valueProvided v then jsSet f "value" v else f
    | none => f
  let f2 := jsSetOpt f1 "key" (jsMemT uf "key")
  let f3 :=
    match jsMemT uf "type" with
    | some t => if jsTruthy t then jsSet f2 "type" t else f2
    | none => f2
  match jsMemT uf "options" with
  | some o => if jsTruthy o then jsSet f3 "options" o else f3
  | none => f3

/-- The `findIndex` scan of route line 174: `f.label === updateField.label`,
where reading `label` off a `null` element throws. -/
def findLabelIndexAux : List Js → Js → Nat → Except Unit (Option Nat)
  | [], _, _ => .ok none
  | f :: rest, lab, i =>
    match f with
    | .null => .error ()
    | g =>
      if optStrictEq (jsMemT g "label") (some lab) then .ok (some i)
      else findLabelIndexAux rest lab (i + 1)

/-- Index of the first field in `l` whose label is strictly equal to `lab`. -/
def findLabelIndex (l : List Js) (lab : Js) : Except Unit (Option Nat) :=
  findLabelIndexAux l lab 0

/-- Replace the merged record's `data.fields` array (the in-place mutations of
route lines 182-198 on the functional model). -/
def setFields (merged : Js) (nf : Js) : Js :=
  match merged with
  | .obj kvs =>
    match objLookup kvs "data" with
    | some d => .obj (objSet kvs "data" (jsSet d "fields" nf))
    | none => .obj kvs
  | v => v

/-- One iteration of the merge loop (route lines 170-200) for update field `uf`:
skip fields with a falsy label; match by strict label equality against the
current merged field list; update the match in place or append `uf`. -/
def mergeOne (merged : Js) (uf : Js) : Except Unit Js :=
  -- line 171: `if (!updateField.label) continue` (throws when `uf` is `null`)
  match jsGetE uf "label" with
  | .error e => .error e
  | .ok none => .ok merged
  | .ok (some lab) =>
    if !jsTruthy lab then .ok merged
    else
      -- line 174: `mergedRecord.data.fields.findIndex(...)`
      match jsGetE merged "data" with
      | .error e => .error e
      | .ok dOpt =>
        match stepE dOpt "fields" with
        | .error e => .error e
        | .ok (some (.arr l)) =>
          match findLabelIndex l lab with
          | .error e => .error e
          | .ok (some i) =>
            let fi := l.getD i .null
            .ok (setFields merged (.arr (l.set i (updateExistingField fi uf))))
          | .ok none => .ok (setFields merged (.arr (l ++ [uf])))
        | .ok _ => .error ()

/-- The whole merge loop over the update payload's fields. -/
def mergeStage (merged0 : Js) (updateFields : List Js) : Except Unit Js :=
  updateFields.foldlM mergeOne merged0

/-- Assign `m.data.k := x` (the metadata overwrites of route lines 208-213). -/
def setDataKey (m : Js) (k : String) (x : Option Js) : Js :=
  match m with
  | .obj kvs =>
    match objLookup kvs "data" with
    | some d => .obj (objSet kvs "data" (jsSetOpt d k x))
    | none => m
  | v => v

/-- Route lines 202-213: set `previous-team-state` from the prior record's
`submissionId` (fallback `responseId`), then overwrite the envelope metadata from
the update payload (`json` is an object with a truthy `data` member here). -/
def finalizeMerged (merged prevRecord json : Js) : Js :=
  let sid := jsChain2 prevRecord "data" "submissionId"
  let rid := jsChain2 prevRecord "data" "responseId"
  let m := jsSetOpt merged "previous-team-state" (if jsTruthyO sid then sid else rid)
  let m := jsSetOpt m "eventId" (jsMemT json "eventId")
  let m := jsSetOpt m "createdAt" (jsMemT json "createdAt")
  let jd := (jsMemT json "data").getD .null
  let m := setDataKey m "responseId" (jsMemT jd "responseId")
  let m := setDataKey m "submissionId" (jsMemT jd "submissionId")
  let m := setDataKey m "respondentId" (jsMemT jd "respondentId")
  let m := setDataKey m "formId" (jsMemT jd "formId")
  let m := setDataKey m "formName" (jsMemT jd "formName")
  setDataKey m "createdAt" (jsMemT jd "createdAt")

/-- The team update handler after signature check and JSON parse (route lines
86-219).  The only write, the `lpush` of the serialized merged record, is the
final action, so an uncaught `TypeError` (the `.error` case) leaves the store
unchanged; `JSON.parse(JSON.stringify(previousRecord))` is a deep copy, the
identity on pure values. -/
def teamsBody (json : Js) (teams : List String) : Except Unit (Response × Option String) :=
  match teamsPrelude json with
  | .error e => .error e
  | .ok (.inl r) => .ok (r, none)
  | .ok (.inr (fields, em, ph, sid)) =>
    match findPreviousRecord teams sid with
    | none => .ok (respPrevNotFound, none)
    | some prev =>
      -- lines 147-161
      match extractTeamMemberPairs prev with
      | .error e => .error e
      | .ok pairs =>
        if !pairs.any (fun pr => pr.1 == em && pr.2 == ph) then .ok (respUnauthorized, none)
        else
          match mergeStage prev fields with
          | .error e => .error e
          | .ok merged => .ok (respOk, some (stringify (finalizeMerged merged prev json)))

/-- Team update `POST` (route lines 63-224). -/
def teamsPOST (sigOk : Bool) (raw : String) (st : Store) : Response × Store :=
  if !sigOk then (respInvalidSig, st)
  else
    match parse raw with
    | none => (respInvalidJson, st)
    | some json =>
      match teamsBody json st.teams with
      | .error _ => (internalError, st)
      | .ok (r, none) => (r, st)
      | .ok (r, some v) => (r, { st with teams := v :: st.teams })

/-! ### The full HTTP surface -/

/-- A request to one of the service's endpoints.  `sigOk` is the outcome of the
HMAC check on the raw body (see the header). -/
inductive Req where
  | subPost (sigOk : Bool) (raw : String)
  | subGet
  | subDelete (raw : String)
  | subHead
  | subOptions
  | teamsPost (sigOk : Bool) (raw : String)
  | teamsHead
  | teamsOptions

/-- Dispatch a request to its handler (HEAD answers 200, OPTIONS 204, neither
touches the store). -/
def handle : Req → Store → Response × Store
  | .subPost sigOk raw, st => submissionPOST sigOk raw st
  | .subGet, st => submissionGET st
  | .subDelete raw, st => submissionDELETE raw st
  | .subHead, st => (⟨200, ""⟩, st)
  | .subOptions, st => (⟨204, ""⟩, st)
  | .teamsPost sigOk raw, st => teamsPOST sigOk raw st
  | .teamsHead, st => (⟨200, ""⟩, st)
  | .teamsOptions, st => (⟨204, ""⟩, st)

/-! ### Auxiliary definitions used by the claims -/

/-- The spec's reading of the `findFieldByLabel` predicate: the field is an
object whose label is a string containing the query as a substring (compared
with `fieldLabelMatchesE`, the source's predicate, in the C7 theorem). -/
def labelSubstrMatch (q : String) (f : Js) : Bool :=
  match f with
  | .obj kvs =>
    match objLookup kvs "label" with
    | some (.str s) => strContains s q
    | _ => false
  | _ => false

/-- A field whose label, when present and non-null, is a string — the typing the
data model declares (`label: string`); on such fields the source predicate never
throws. -/
def labelOkB (f : Js) : Bool :=
  match f with
  | .obj kvs =>
    match objLookup kvs "label" with
    | none => true
    | some .null => true
    | some (.str _) => true
    | some _ => false
  | _ => true

/-- Number of fields in a record's `data.fields` array, when it is one. -/
def fieldsCount (r : Js) : Option Nat :=
  match jsChain2 r "data" "fields" with
  | some (.arr l) => some l.length
  | _ => none

/-- Whether neither of a stored record's `data.submissionId` and
`data.responseId` (read as the lookup scan reads them) is a string. -/
def idsNonString (j : Js) : Bool :=
  (match jsChain2 j "data" "submissionId" with
   | some (.str _) => false
   | _ => true) &&
  (match jsChain2 j "data" "responseId" with
   | some (.str _) => false
   | _ => true)

/-- A stored team registration used as concrete test data: submissionId "s1",
one member pair (a@x.com, 111), and a "Team name" field. -/
def priorRec : Js := .obj [
  ("eventId", .str "e0"),
  ("data", .obj [
    ("submissionId", .str "s1"),
    ("responseId", .str "r1"),
    ("fields", .arr [
      .obj [("key", .str "k1"), ("label", .str "1: Email"), ("value", .str "a@x.com")],
      .obj [("key", .str "k2"), ("label", .str "1: Phone number"), ("value", .str "111")],
      .obj [("key", .str "k3"), ("label", .str "Team name"), ("value", .str "old")]
    ])
  ])]

/-- The update fields of `updPayload`: the submitter matches `priorRec`'s member
pair up to normalization (upper-case email, spaced phone), and Team ID is
"s1". -/
def updFields : List Js := [
  .obj [("key", .str "u1"), ("label", .str "Email of person filling this form"),
        ("value", .str "A@X.COM")],
  .obj [("key", .str "u2"), ("label", .str "Phone number of person filling this form"),
        ("value", .str " 11 1 ")],
  .obj [("key", .str "u3"), ("label", .str "Team ID"), ("value", .str "s1")],
  .obj [("key", .str "u4"), ("label", .str "Team name"), ("value", .str "new")]]

/-- A team-update payload built from `updFields`. -/
def updPayload : Js := .obj [
  ("eventId", .str "e9"),
  ("data", .obj [
    ("submissionId", .str "s9"),
    ("fields", .arr updFields)
  ])]

/-- A stored record whose identifiers are JSON numbers (42), for the C10
witness. -/
def numericIdRec : Js := .obj [
  ("data", .obj [
    ("submissionId", .num 42),
    ("responseId", .num 42),
    ("fields", .arr [
      .obj [("label", .str "1: Email"), ("value", .str "a@x.com")],
      .obj [("label", .str "1: Phone number"), ("value", .str "111")]
    ])
  ])]

/-- The update fields of `updPayloadNumericId`: the Team ID value is the JSON
number 42. -/
def numericIdFields : List Js := [
  .obj [("label", .str "Email of person filling this form"), ("value", .str "a@x.com")],
  .obj [("label", .str "Phone number of person filling this form"), ("value", .str "111")],
  .obj [("label", .str "Team ID"), ("value", .num 42)]]

/-- A team-update payload whose Team ID value is the JSON number 42, numerically
equal to `numericIdRec`'s identifiers. -/
def updPayloadNumericId : Js := .obj [("data", .obj [("fields", .arr numericIdFields)])]

/-- Prior record for the C6 counterexample: an empty field list. -/
def c6prior : Js := .obj [("data", .obj [("fields", .arr [])])]

/-- First update field of the C6 counterexample: label "L", fresh for
`c6prior`. -/
def c6u1 : Js := .obj [("label", .str "L"), ("value", .str "v1"), ("key", .str "k1")]

/-- Second update field of the C6 counterexample: the same label "L", also
absent from `c6prior`'s field list. -/
def c6u2 : Js := .obj [("label", .str "L"), ("value", .str "v2")]

/-- The record the merge loop actually produces from `c6prior` and
`[c6u1, c6u2]`: a single field carrying the second update's value — not two
appended fields. -/
def c6result : Js :=
  .obj [("data", .obj [("fields", .arr [.obj [("label", .str "L"), ("value", .str "v2")]])])]

/-! ### Helper lemmas -/

theorem toNat_ofNat_small {n : Nat} (h : n < 0xD800) : (Char.ofNat n).toNat = n := by
  have hv : Nat.isValidChar n := Or.inl h
  simp [Char.ofNat, hv, Char.ofNatAux, Char.toNat, UInt32.toNat]

theorem lowerChar_of_upper {c : Char} (h : 65 ≤ c.toNat ∧ c.toNat ≤ 90) :
    lowerChar c = Char.ofNat (c.toNat + 32) := by
  simp only [lowerChar, if_pos h]

theorem lowerChar_of_not {c : Char} (h : ¬(65 ≤ c.toNat ∧ c.toNat ≤ 90)) :
    lowerChar c = c := by
  simp only [lowerChar, if_neg h]

theorem lowerChar_lowerChar (c : Char) : lowerChar (lowerChar c) = lowerChar c := by
  by_cases h : 65 ≤ c.toNat ∧ c.toNat ≤ 90
  · rw [lowerChar_of_upper h]
    apply lowerChar_of_not
    rw [toNat_ofNat_small (by omega)]
    omega
  · rw [lowerChar_of_not h]
    exact lowerChar_of_not h

theorem wsNat_false_of_range {n : Nat} (h1 : 65 ≤ n) (h2 : n ≤ 122) : wsNat n = false := by
  simp only [wsNat, Bool.or_eq_false_iff, Bool.and_eq_false_iff, beq_eq_false_iff_ne, ne_eq,
    decide_eq_false_iff_not, not_le]
  omega

theorem isJsWs_lowerChar (c : Char) : isJsWs (lowerChar c) = isJsWs c := by
  by_cases h : 65 ≤ c.toNat ∧ c.toNat ≤ 90
  · show wsNat (lowerChar c).toNat = wsNat c.toNat
    rw [lowerChar_of_upper h, toNat_ofNat_small (by omega)]
    rw [wsNat_false_of_range (by omega) (by omega), wsNat_false_of_range (by omega) (by omega)]
  · rw [lowerChar_of_not h]

theorem map_lower_idem (l : List Char) :
    (l.map lowerChar).map lowerChar = l.map lowerChar := by
  rw [List.map_map]
  exact List.map_congr_left (fun a _ => lowerChar_lowerChar a)

theorem trimList_eq_rdrop (l : List Char) :
    trimList l = List.rdropWhile isJsWs (l.dropWhile isJsWs) := rfl

theorem trim_trim (l : List Char) : trimList (trimList l) = trimList l := by
  rw [trimList_eq_rdrop, trimList_eq_rdrop]
  have hdt : List.dropWhile isJsWs (List.dropWhile isJsWs l) = List.dropWhile isJsWs l :=
    List.dropWhile_idempotent _ _
  have hdrop : List.dropWhile isJsWs
      (List.rdropWhile isJsWs (List.dropWhile isJsWs l)) =
      List.rdropWhile isJsWs (List.dropWhile isJsWs l) := by
    rcases hT : List.rdropWhile isJsWs (List.dropWhile isJsWs l) with _ | ⟨a, T⟩
    · simp
    · obtain ⟨s, hs⟩ := List.rdropWhile_prefix isJsWs (List.dropWhile isJsWs l)
      rw [hT] at hs
      have hws : isJsWs a = false := by
        by_contra hb
        rw [Bool.not_eq_false] at hb
        rw [← hs, List.cons_append, List.dropWhile_cons, hb, if_pos rfl] at hdt
        have hlen := congrArg List.length hdt
        rw [List.length_cons] at hlen
        have hle := (@List.dropWhile_sublist Char (T ++ s) isJsWs).length_le
        omega
      rw [List.dropWhile_cons, hws]
      simp
  rw [hdrop, List.rdropWhile_idempotent]

theorem trim_map_lower (l : List Char) :
    trimList (l.map lowerChar) = (trimList l).map lowerChar := by
  have hcomp : (isJsWs ∘ lowerChar) = isJsWs := funext isJsWs_lowerChar
  simp only [trimList, List.dropWhile_map, hcomp, ← List.map_reverse]

theorem trim_of_noWs {l : List Char} (h : ∀ c ∈ l, isJsWs c = false) :
    trimList l = l := by
  rw [trimList_eq_rdrop]
  have h1 : List.dropWhile isJsWs l = l := by
    rw [List.dropWhile_eq_self_iff]
    intro hl
    have := h _ (List.get_mem l 0 hl)
    simp only [List.get_eq_getElem] at this
    simp [this]
  rw [h1, List.rdropWhile_eq_self_iff]
  intro hne
  have := h _ (List.getLast_mem hne)
  simp [this]

theorem filter_noWs_all (l : List Char) :
    ∀ c ∈ l.filter (fun c => !isJsWs c), isJsWs c = false := by
  intro c hc
  have := List.mem_filter.mp hc
  simpa using this.2

theorem filter_nonWs_idem (l : List Char) :
    (l.filter (fun c => !isJsWs c)).filter (fun c => !isJsWs c) =
      l.filter (fun c => !isJsWs c) := by
  rw [List.filter_filter]
  simp only [Bool.and_self]

/-- C8: `normalizeEmail` and `normalizePhone` are idempotent — feeding the
normalized string back into the function returns it unchanged, for every JSON
input value. -/
theorem c8_normalize_idempotent (x : Js) :
    normalizeEmail (.str (normalizeEmail x)) = normalizeEmail x ∧
    normalizePhone (.str (normalizePhone x)) = normalizePhone x := by
  constructor
  · cases x with
    | str s =>
      by_cases hs : s.isEmpty
      · simp [normalizeEmail, hs]
        exact fun h => absurd h (by decide)
      · have h1 : normalizeEmail (.str s) = ⟨trimList (s.data.map lowerChar)⟩ := by
          simp [normalizeEmail, hs, strTrim, strLower]
        rw [h1]
        set r : List Char := trimList (s.data.map lowerChar) with hr
        have hmaps : r.map lowerChar = r := by
          calc r.map lowerChar
              = trimList ((s.data.map lowerChar).map lowerChar) := (trim_map_lower _).symm
            _ = trimList (s.data.map lowerChar) := by rw [map_lower_idem]
        have htr : trimList r = r := trim_trim _
        by_cases hrE : r = []
        · rw [hrE]
          rfl
        · have hisE : (⟨r⟩ : String).isEmpty = false := by
            rw [Bool.eq_false_iff]
            intro hEq
            rw [String.isEmpty_iff] at hEq
            exact hrE (congrArg String.data hEq)
          simp only [normalizeEmail, hisE, Bool.false_eq_true, if_false, strTrim, strLower]
          rw [hmaps, htr]
    | null => rfl
    | bool b => rfl
    | num n => rfl
    | arr l => rfl
    | obj kvs => rfl
  · cases x with
    | str s =>
      by_cases hs : s.isEmpty
      · simp [normalizePhone, hs]
        exact fun h => absurd h (by decide)
      · have h1 : normalizePhone (.str s) =
            ⟨trimList (s.data.filter (fun c => !isJsWs c))⟩ := by
          simp [normalizePhone, hs, strTrim, strStripWs]
        have hrf : trimList (s.data.filter (fun c => !isJsWs c)) =
            s.data.filter (fun c => !isJsWs c) := trim_of_noWs (filter_noWs_all _)
        rw [h1, hrf]
        set r : List Char := s.data.filter (fun c => !isJsWs c) with hr
        have hfilt : r.filter (fun c => !isJsWs c) = r := filter_nonWs_idem _
        have htr : trimList r = r := trim_of_noWs (filter_noWs_all _)
        by_cases hrE : r = []
        · rw [hrE]
          rfl
        · have hisE : (⟨r⟩ : String).isEmpty = false := by
            rw [Bool.eq_false_iff]
            intro hEq
            rw [String.isEmpty_iff] at hEq
            exact hrE (congrArg String.data hEq)
          simp only [normalizePhone, hisE, Bool.false_eq_true, if_false, strTrim, strStripWs]
          rw [hfilt, htr]
    | null => rfl
    | bool b => rfl
    | num n => rfl
    | arr l => rfl
    | obj kvs => rfl

theorem objLookup_objSet (kvs : List (String × Js)) (k : String) (x : Js) (q : String) :
    objLookup (objSet kvs k x) q = if k = q then some x else objLookup kvs q := by
  induction kvs with
  | nil =>
    by_cases h : k = q
    · subst h; simp [objSet, objLookup]
    · simp [objSet, objLookup, h]
  | cons kv rest ih =>
    obtain ⟨a, b⟩ := kv
    by_cases h1 : a = k
    · subst h1
      by_cases h2 : a = q
      · subst h2; simp [objSet, objLookup]
      · simp [objSet, objLookup, h2]
    · by_cases h2 : a = q
      · subst h2
        have hk : ¬k = a := fun hh => h1 hh.symm
        simp [objSet, objLookup, h1, hk]
      · simp [objSet, objLookup, h1, h2, ih]

theorem objLookup_objDel (kvs : List (String × Js)) (q q' : String) :
    objLookup (objDel kvs q) q' = if q = q' then none else objLookup kvs q' := by
  induction kvs with
  | nil => simp [objDel, objLookup]
  | cons kv rest ih =>
    obtain ⟨a, b⟩ := kv
    by_cases h1 : a = q
    · subst h1
      by_cases h2 : a = q'
      · subst h2; simp [objDel, objLookup, ih]
      · simp [objDel, objLookup, h2, ih]
    · by_cases h2 : a = q'
      · subst h2
        have hne : ¬q = a := fun hh => h1 hh.symm
        simp [objDel, objLookup, h1, hne, ih]
      · simp [objDel, objLookup, h1, h2, ih]

/-- C5: when an update field matches an existing field by label (route lines
178-194, `updateExistingField`), the merge overwrites `value` only when the
update's value is neither null, undefined nor the empty string (otherwise the
prior value stays); it always overwrites `key` with the update field's key; and
it overwrites `type` and `options` exactly when the update field supplies a
truthy one. -/
theorem c5_merge_field_rules (fkvs ukvs : List (String × Js)) :
    jsMemT (updateExistingField (.obj fkvs) (.obj ukvs)) "value" =
      (match objLookup ukvs "value" with
       | some v => if valueProvided v then some v else objLookup fkvs "value"
       | none => objLookup fkvs "value") ∧
    jsMemT (updateExistingField (.obj fkvs) (.obj ukvs)) "key" = objLookup ukvs "key" ∧
    jsMemT (updateExistingField (.obj fkvs) (.obj ukvs)) "type" =
      (match objLookup ukvs "type" with
       | some t => if jsTruthy t then some t else objLookup fkvs "type"
       | none => objLookup fkvs "type") ∧
    jsMemT (updateExistingField (.obj fkvs) (.obj ukvs)) "options" =
      (match objLookup ukvs "options" with
       | some o => if jsTruthy o then some o else objLookup fkvs "options"
       | none => objLookup fkvs "options") := by
  refine ⟨?_, ?_, ?_, ?_⟩ <;>
  · simp only [updateExistingField, jsMemT]
    rcases hv : objLookup ukvs "value" with _ | v <;>
      rcases hk : objLookup ukvs "key" with _ | k0 <;>
        rcases ht : objLookup ukvs "type" with _ | t0 <;>
          rcases ho : objLookup ukvs "options" with _ | o0 <;>
            simp [jsSet, jsSetOpt, objLookup_objSet, objLookup_objDel] <;>
              split_ifs <;>
                simp [jsSet, jsSetOpt, objLookup_objSet, objLookup_objDel]

theorem jsGetE_of_ne_null {v : Js} (h : v ≠ .null) (k : String) :
    jsGetE v k = .ok (jsMemT v k) := by
  cases v with
  | null => exact absurd rfl h
  | bool b => rfl
  | num n => rfl
  | str s => rfl
  | arr l => rfl
  | obj kvs => rfl

theorem mergeOne_found (mkvs : List (String × Js)) (d : Js) (l : List Js)
    (ukvs : List (String × Js)) (lab : Js) (i : Nat)
    (hd : objLookup mkvs "data" = some d) (hdn : d ≠ .null)
    (hf : jsMemT d "fields" = some (.arr l))
    (hlab : objLookup ukvs "label" = some lab) (hlabT : jsTruthy lab = true)
    (hidx : findLabelIndex l lab = .ok (some i)) :
    mergeOne (.obj mkvs) (.obj ukvs) =
      .ok (setFields (.obj mkvs)
        (.arr (l.set i (updateExistingField (l.getD i .null) (.obj ukvs))))) := by
  have hstep : stepE (some d) "fields" = .ok (some (.arr l)) := by
    simp [stepE, jsGetE_of_ne_null hdn, hf]
  simp only [mergeOne, jsGetE, jsMemT, hlab, hlabT, Bool.not_true, Bool.false_eq_true,
    if_false, hd, hstep, hidx]

theorem mergeOne_append (mkvs : List (String × Js)) (d : Js) (l : List Js)
    (ukvs : List (String × Js)) (lab : Js)
    (hd : objLookup mkvs "data" = some d) (hdn : d ≠ .null)
    (hf : jsMemT d "fields" = some (.arr l))
    (hlab : objLookup ukvs "label" = some lab) (hlabT : jsTruthy lab = true)
    (hidx : findLabelIndex l lab = .ok none) :
    mergeOne (.obj mkvs) (.obj ukvs) = .ok (setFields (.obj mkvs) (.arr (l ++ [.obj ukvs]))) := by
  have hstep : stepE (some d) "fields" = .ok (some (.arr l)) := by
    simp [stepE, jsGetE_of_ne_null hdn, hf]
  simp only [mergeOne, jsGetE, jsMemT, hlab, hlabT, Bool.not_true, Bool.false_eq_true,
    if_false, hd, hstep, hidx]

/-- C9: when an update field matches an existing field by label but supplies no
`key` member, the merge still overwrites the matched field's `key` — with
`undefined` — so the previously stored key (here `k`) is gone from the merged
field. -/
theorem c9_key_lost (mkvs : List (String × Js)) (d : Js) (l : List Js)
    (ukvs fkvs : List (String × Js)) (lab k : Js) (i : Nat)
    (hd : objLookup mkvs "data" = some d) (hdn : d ≠ .null)
    (hf : jsMemT d "fields" = some (.arr l))
    (hlab : objLookup ukvs "label" = some lab) (hlabT : jsTruthy lab = true)
    (hidx : findLabelIndex l lab = .ok (some i))
    (hfield : l.getD i .null = .obj fkvs)
    (hkey : objLookup fkvs "key" = some k)
    (hnokey : objLookup ukvs "key" = none) :
    mergeOne (.obj mkvs) (.obj ukvs) =
      .ok (setFields (.obj mkvs)
        (.arr (l.set i (updateExistingField (.obj fkvs) (.obj ukvs))))) ∧
    jsMemT (updateExistingField (.obj fkvs) (.obj ukvs)) "key" = none := by
  constructor
  · rw [mergeOne_found mkvs d l ukvs lab i hd hdn hf hlab hlabT hidx, hfield]
  · simp only [updateExistingField, jsMemT]
    rcases hv : objLookup ukvs "value" with _ | v <;>
      rcases ht : objLookup ukvs "type" with _ | t0 <;>
        rcases ho : objLookup ukvs "options" with _ | o0 <;>
          simp [hnokey, jsSet, jsSetOpt, objLookup_objSet, objLookup_objDel] <;>
            split_ifs <;>
              simp [jsSet, jsSetOpt, objLookup_objSet, objLookup_objDel]

/-- C6 amended: an update field with a truthy label equal to no label of the
merged record's current field list (the prior fields plus fields appended by
earlier update fields) is appended verbatim, growing that list by exactly
one. -/
theorem c6_fresh_label_appends (mkvs : List (String × Js)) (d : Js) (l : List Js)
    (ukvs : List (String × Js)) (lab : Js)
    (hd : objLookup mkvs "data" = some d) (hdn : d ≠ .null)
    (hf : jsMemT d "fields" = some (.arr l))
    (hlab : objLookup ukvs "label" = some lab) (hlabT : jsTruthy lab = true)
    (hidx : findLabelIndex l lab = .ok none) :
    mergeOne (.obj mkvs) (.obj ukvs) = .ok (setFields (.obj mkvs) (.arr (l ++ [Js.obj ukvs]))) ∧
    (l ++ [Js.obj ukvs]).length = l.length + 1 := by
  refine ⟨?_, by simp⟩
  exact mergeOne_append mkvs d l ukvs lab hd hdn hf hlab hlabT hidx

/-- C6 counterexample: merging two update fields that share the fresh label "L"
onto a prior record with no fields yields one merged field, not two — the second
update field's label is absent from the prior record's field list, yet it is not
appended, so the merged field count grows by one, not by one per such field. -/
theorem c6_counterexample :
    mergeStage c6prior [c6u1, c6u2] = .ok c6result ∧
    fieldsCount c6prior = some 0 ∧
    fieldsCount c6result = some 1 ∧
    fieldsCount c6result ≠ some (0 + 2) := by
  refine ⟨rfl, rfl, rfl, ?_⟩
  intro h
  have h1 : fieldsCount c6result = some 1 := rfl
  rw [h1] at h
  exact absurd h (by decide)

theorem fieldLabelMatchesE_ok {f : Js} (h : labelOkB f = true) (q : String) :
    fieldLabelMatchesE q f = .ok (labelSubstrMatch q f) := by
  cases f with
  | obj kvs =>
    rcases hl : objLookup kvs "label" with _ | v
    · simp [fieldLabelMatchesE, labelSubstrMatch, hl]
    · cases v with
      | null => simp [fieldLabelMatchesE, labelSubstrMatch, hl]
      | str s => simp [fieldLabelMatchesE, labelSubstrMatch, hl]
      | bool b => simp [labelOkB, hl] at h
      | num n => simp [labelOkB, hl] at h
      | arr xs => simp [labelOkB, hl] at h
      | obj kvs2 => simp [labelOkB, hl] at h
  | null => rfl
  | bool b => rfl
  | num n => rfl
  | str s => rfl
  | arr l => rfl

/-- C7: `findFieldByLabel` answers null for an absent, null or empty field list,
and on a list of fields whose labels are typed as the data model declares
(string or absent) it returns the first field in list order whose label contains
the query as a substring — substring containment, not equality. -/
theorem c7_findByLabel (q : String) :
    findFieldByLabel none q = .ok none ∧
    findFieldByLabel (some .null) q = .ok none ∧
    findFieldByLabel (some (.arr [])) q = .ok none ∧
    ∀ l : List Js, (∀ f ∈ l, labelOkB f = true) →
      findFieldByLabelL l q = .ok (l.find? (labelSubstrMatch q)) := by
  refine ⟨rfl, rfl, rfl, ?_⟩
  intro l h
  induction l with
  | nil => rfl
  | cons f rest ih =>
    have hf : labelOkB f = true := h f (List.mem_cons_self f rest)
    have hrest : ∀ g ∈ rest, labelOkB g = true :=
      fun g hg => h g (List.mem_cons_of_mem f hg)
    have hmatch := fieldLabelMatchesE_ok hf q
    simp only [findFieldByLabelL, findFirstE, hmatch, List.find?_cons]
    cases hb : labelSubstrMatch q f
    · simpa only [findFieldByLabelL] using ih hrest
    · rfl

/-- C1 (exhibiting the code bug): a submission POST with a valid signature and
body `\x7b"a": 1\x7d` — valid JSON without a `data` member — answers 500, yet the
entry has been pushed onto `enrolment-submissions`: route line 53 pushes before
the logging line 54 reads `json.data.formName` off `undefined` and throws.  The
claim (no write on any non-2xx response) matches the spec's stated intent; the
code's unguarded property read in a log statement breaks it. -/
theorem c1_partial_write_on_500 :
    (handle (.subPost true "\x7b\"a\": 1\x7d") ⟨["x"], []⟩).1.status = 500 ∧
    (handle (.subPost true "\x7b\"a\": 1\x7d") ⟨["x"], []⟩).2 ≠ (⟨["x"], []⟩ : Store) := by
  constructor
  · rfl
  · have h : (handle (.subPost true "\x7b\"a\": 1\x7d") ⟨["x"], []⟩).2 =
        (⟨["\x7b\"a\":1\x7d", "x"], []⟩ : Store) := rfl
    rw [h]
    exact (by decide : (⟨["\x7b\"a\":1\x7d", "x"], []⟩ : Store) ≠ ⟨["x"], []⟩)

/-- C2 counterexample: for the valid-signature POST of the body `\x7b"a": 1\x7d`
onto the store `["x"]`, it is false that the raw body string is appended at the
tail and that the response is 200: the handler answers 500 here, the pushed
value is the re-serialization `\x7b"a":1\x7d` (not the raw body), and it goes to
the head. -/
theorem c2_counterexample :
    ¬ ((handle (.subPost true "\x7b\"a\": 1\x7d") ⟨["x"], []⟩).1.status = 200 ∧
       (handle (.subPost true "\x7b\"a\": 1\x7d") ⟨["x"], []⟩).2.submissions =
         ["x", "\x7b\"a\": 1\x7d"]) := by
  intro h
  have h1 := h.1
  have h500 : (handle (.subPost true "\x7b\"a\": 1\x7d") ⟨["x"], []⟩).1.status = 500 := rfl
  rw [h500] at h1
  exact absurd h1 (by decide)

/-- C2 amended: a submission POST whose signature verifies and whose body parses
pushes `JSON.stringify` of the parsed value onto the head of
`enrolment-submissions` (the teams list untouched); the response is
200 `(status ok)` exactly when the parsed body is an object with a non-null
`data` member, and 500 otherwise — with the push already made. -/
theorem c2_push_on_parse (raw : String) (j : Js) (st : Store)
    (hp : parse raw = some j) :
    (submissionPOST true raw st).2.submissions = stringify j :: st.submissions ∧
    (submissionPOST true raw st).2.teams = st.teams ∧
    (logLineOk j = true → (submissionPOST true raw st).1 = respOk) ∧
    (logLineOk j = false → (submissionPOST true raw st).1 = internalError) := by
  have hrun : submissionPOST true raw st =
      if logLineOk j then (respOk, { st with submissions := stringify j :: st.submissions })
      else (internalError, { st with submissions := stringify j :: st.submissions }) := by
    simp only [submissionPOST, Bool.not_true, Bool.false_eq_true, if_false, hp]
  cases hl : logLineOk j
  · rw [hrun, hl]
    refine ⟨rfl, rfl, fun hc => absurd hc (by decide), fun _ => rfl⟩
  · rw [hrun, hl]
    refine ⟨rfl, rfl, fun _ => rfl, fun hc => absurd hc (by decide)⟩

/-- C2 witness: the amended behaviour at the concrete body with a `data`
member. -/
theorem c2_push_on_parse_witness :
    parse "\x7b\"data\":1\x7d" = some (.obj [("data", .num 1)]) ∧
    ((submissionPOST true "\x7b\"data\":1\x7d" ⟨["x"], []⟩).2.submissions =
        stringify (.obj [("data", .num 1)]) :: ["x"] ∧
      (submissionPOST true "\x7b\"data\":1\x7d" ⟨["x"], []⟩).2.teams = [] ∧
      (logLineOk (.obj [("data", .num 1)]) = true →
        (submissionPOST true "\x7b\"data\":1\x7d" ⟨["x"], []⟩).1 = respOk) ∧
      (logLineOk (.obj [("data", .num 1)]) = false →
        (submissionPOST true "\x7b\"data\":1\x7d" ⟨["x"], []⟩).1 = internalError)) :=
  ⟨rfl, c2_push_on_parse "\x7b\"data\":1\x7d" (.obj [("data", .num 1)]) ⟨["x"], []⟩ rfl⟩

theorem submissionDELETE_eq {raw : String} {b : Js} (st : Store)
    (hp : parse raw = some b) (hb : b ≠ .null) :
    submissionDELETE raw st =
      (match jsMemT b "eventId" with
       | none => (respMissingEventId, st)
       | some e =>
         if !jsTruthy e then (respMissingEventId, st)
         else
           match findDeleteTarget st.submissions e with
           | none => (respEventNotFound, st)
           | some target =>
             (respDeleteSuccess, { st with submissions := st.submissions.erase target })) := by
  cases b with
  | null => exact absurd rfl hb
  | bool v => simp only [submissionDELETE, hp]
  | num n => simp only [submissionDELETE, hp]
  | str s => simp only [submissionDELETE, hp]
  | arr l => simp only [submissionDELETE, hp]
  | obj kvs => simp only [submissionDELETE, hp]

theorem findDeleteTarget_mem {items : List String} {e : Js} {t : String}
    (h : findDeleteTarget items e = some t) : t ∈ items := by
  induction items with
  | nil => exact absurd h (by simp [findDeleteTarget])
  | cons raw rest ih =>
    unfold findDeleteTarget at h
    rcases hp : parse raw with _ | j
    · rw [hp] at h
      exact List.mem_cons_of_mem _ (ih h)
    · rw [hp] at h
      cases j <;> dsimp only at h
      case null => exact List.mem_cons_of_mem _ (ih h)
      all_goals
        first
        | (split at h
           · injection h with h
             exact h ▸ List.mem_cons_self raw rest
           · exact List.mem_cons_of_mem _ (ih h))

/-- C3 counterexample: a DELETE whose body `\x7b\x7d` has no `eventId` answers
400, not the 404 the claim states. -/
theorem c3_counterexample :
    (handle (.subDelete "\x7b\x7d") ⟨[], []⟩).1.status = 400 ∧
    (handle (.subDelete "\x7b\x7d") ⟨[], []⟩).1.status ≠ 404 := by
  constructor
  · rfl
  · have h : (handle (.subDelete "\x7b\x7d") ⟨[], []⟩).1.status = 400 := rfl
    rw [h]
    decide

/-- C3 amended: on a DELETE whose body parses to a non-null JSON value, a
missing or falsy `eventId` answers 400; with a truthy `eventId`, no strictly
equal stored `eventId` answers 404 with the store unchanged (entries that fail
to parse are skipped, not fatal — the scan simply passes them); a match removes
exactly one occurrence of the raw string-identical value and answers 200. -/
theorem c3_delete_behavior (raw : String) (b : Js) (st : Store)
    (hp : parse raw = some b) (hb : b ≠ .null) :
    (jsTruthyO (jsMemT b "eventId") = false →
      submissionDELETE raw st = (respMissingEventId, st)) ∧
    (∀ e, jsMemT b "eventId" = some e → jsTruthy e = true →
      (findDeleteTarget st.submissions e = none →
        submissionDELETE raw st = (respEventNotFound, st)) ∧
      (∀ t, findDeleteTarget st.submissions e = some t →
        submissionDELETE raw st =
          (respDeleteSuccess, { st with submissions := st.submissions.erase t }) ∧
        t ∈ st.submissions ∧
        (st.submissions.erase t).length + 1 = st.submissions.length)) := by
  have hrun := submissionDELETE_eq st hp hb
  constructor
  · intro hfalsy
    rcases hm : jsMemT b "eventId" with _ | e
    · rw [hrun, hm]
    · rw [hm] at hfalsy
      have : jsTruthy e = false := hfalsy
      rw [hrun, hm]
      simp [this]
  · intro e hm htruthy
    constructor
    · intro hnone
      rw [hrun, hm]
      simp [htruthy, hnone]
    · intro t hfound
      have hmem : t ∈ st.submissions := findDeleteTarget_mem hfound
      refine ⟨?_, hmem, ?_⟩
      · rw [hrun, hm]
        simp [htruthy, hfound]
      · have hlen := List.length_erase_of_mem hmem
        have hpos : 0 < st.submissions.length := List.length_pos.mpr (by
          intro hnil
          rw [hnil] at hmem
          exact absurd hmem (List.not_mem_nil t))
        omega

/-- C3 witness: deleting eventId "e1" from a store holding an unparseable entry
followed by the matching entry skips the garbage, removes exactly the matching
raw string and answers 200; the falsy-eventId and no-match branches are
exercised on the same concrete body elsewhere in the conjunction. -/
theorem c3_delete_behavior_witness :
    parse "\x7b\"eventId\":\"e1\"\x7d" = some (.obj [("eventId", .str "e1")]) ∧
    (Js.obj [("eventId", .str "e1")]) ≠ .null ∧
    (∀ t, findDeleteTarget ["notjson", "\x7b\"eventId\":\"e1\"\x7d"] (.str "e1") = some t →
      submissionDELETE "\x7b\"eventId\":\"e1\"\x7d" ⟨["notjson", "\x7b\"eventId\":\"e1\"\x7d"], []⟩ =
        (respDeleteSuccess,
          { (⟨["notjson", "\x7b\"eventId\":\"e1\"\x7d"], []⟩ : Store) with
            submissions := ["notjson", "\x7b\"eventId\":\"e1\"\x7d"].erase t }) ∧
      t ∈ ["notjson", "\x7b\"eventId\":\"e1\"\x7d"] ∧
      (["notjson", "\x7b\"eventId\":\"e1\"\x7d"].erase t).length + 1 =
        (["notjson", "\x7b\"eventId\":\"e1\"\x7d"] : List String).length) :=
  ⟨rfl, fun h => Js.noConfusion h,
    ((c3_delete_behavior "\x7b\"eventId\":\"e1\"\x7d" (.obj [("eventId", .str "e1")])
      ⟨["notjson", "\x7b\"eventId\":\"e1\"\x7d"], []⟩ rfl (fun h => Js.noConfusion h)).2
      (.str "e1") rfl rfl).2⟩

theorem teamsPOST_eq {raw : String} {json : Js} (st : Store)
    (hp : parse raw = some json) :
    teamsPOST true raw st =
      (match teamsBody json st.teams with
       | .error _ => (internalError, st)
       | .ok (r, none) => (r, st)
       | .ok (r, some v) => (r, { st with teams := v :: st.teams })) := by
  simp only [teamsPOST, Bool.not_true, Bool.false_eq_true, if_false, hp]

/-- C4: once a team-update request has passed signature, parse, validation and
the prior-record lookup, the response is 403 exactly when the submitter's
normalized (email, phone) pair equals no team-member pair extracted from the
prior record; in particular a prior record yielding zero pairs always fails
authorization. -/
theorem c4_authorization (raw : String) (st : Store) (json : Js)
    (fields : List Js) (em ph sid : String) (prev : Js)
    (pairs : List (String × String))
    (hp : parse raw = some json)
    (hpre : teamsPrelude json = .ok (.inr (fields, em, ph, sid)))
    (hfound : findPreviousRecord st.teams sid = some prev)
    (hpairs : extractTeamMemberPairs prev = .ok pairs) :
    ((teamsPOST true raw st).1 = respUnauthorized ↔
      pairs.any (fun pr => pr.1 == em && pr.2 == ph) = false) ∧
    (pairs = [] → (teamsPOST true raw st).1 = respUnauthorized) := by
  have hbody : teamsBody json st.teams =
      (if !pairs.any (fun pr => pr.1 == em && pr.2 == ph) then .ok (respUnauthorized, none)
       else
         match mergeStage prev fields with
         | .error e => .error e
         | .ok merged => .ok (respOk, some (stringify (finalizeMerged merged prev json)))) := by
    simp only [teamsBody, hpre, hfound, hpairs]
  have hrun := teamsPOST_eq st hp
  cases hauth : pairs.any (fun pr => pr.1 == em && pr.2 == ph)
  · rw [hauth] at hbody
    simp only [Bool.not_false, if_true] at hbody
    rw [hbody] at hrun
    dsimp only at hrun
    refine ⟨⟨fun _ => rfl, fun _ => ?_⟩, fun _ => ?_⟩
    · rw [hrun]
    · rw [hrun]
  · rw [hauth] at hbody
    simp only [Bool.not_true, Bool.false_eq_true, if_false] at hbody
    refine ⟨⟨fun h403 => ?_, fun hfalse => ?_⟩, fun hnil => ?_⟩
    · exfalso
      rcases hms : mergeStage prev fields with e | merged
      · rw [hms] at hbody
        rw [hbody] at hrun
        dsimp only at hrun
        rw [hrun] at h403
        dsimp only at h403
        exact absurd h403 (by decide)
      · rw [hms] at hbody
        rw [hbody] at hrun
        dsimp only at hrun
        rw [hrun] at h403
        dsimp only at h403
        exact absurd h403 (by decide)
    · exact absurd hfalse (by decide)
    · rw [hnil] at hauth
      simp at hauth

set_option maxRecDepth 100000 in
/-- C4 witness: the concrete update `updPayload` against a store holding
`priorRec` — the submitter (A@X.COM, " 11 1 ") normalizes onto the stored pair
(a@x.com, 111), so the response is not 403. -/
theorem c4_authorization_witness :
    ((teamsPOST true (stringify updPayload) ⟨[], [stringify priorRec]⟩).1 = respUnauthorized ↔
      ([("a@x.com", "111")].any (fun pr => pr.1 == "a@x.com" && pr.2 == "111")) = false) ∧
    ([("a@x.com", "111")] = ([] : List (String × String)) →
      (teamsPOST true (stringify updPayload) ⟨[], [stringify priorRec]⟩).1 = respUnauthorized) :=
  c4_authorization (stringify updPayload) ⟨[], [stringify priorRec]⟩ updPayload updFields
    "a@x.com" "111" "s1" priorRec [("a@x.com", "111")] rfl rfl rfl rfl

theorem optStrictEq_some_str {o : Option Js} {s : String}
    (h : optStrictEq o (some (.str s)) = true) : o = some (.str s) := by
  rcases o with _ | v
  · simp [optStrictEq] at h
  · cases v with
    | str a =>
      simp only [optStrictEq, jsStrictEq, beq_iff_eq] at h
      rw [h]
    | null => simp [optStrictEq, jsStrictEq] at h
    | bool b => simp [optStrictEq, jsStrictEq] at h
    | num n => simp [optStrictEq, jsStrictEq] at h
    | arr l => simp [optStrictEq, jsStrictEq] at h
    | obj kvs => simp [optStrictEq, jsStrictEq] at h

theorem recordMatches_false_of_ids {j : Js} {sid : String}
    (h : idsNonString j = true) : recordMatches j sid = false := by
  by_contra hb
  rw [Bool.not_eq_false] at hb
  unfold recordMatches at hb
  rw [Bool.or_eq_true] at hb
  unfold idsNonString at h
  rw [Bool.and_eq_true] at h
  obtain ⟨h1, h2⟩ := h
  rcases hb with hb | hb
  · rw [optStrictEq_some_str hb] at h1
    simp at h1
  · rw [optStrictEq_some_str hb] at h2
    simp at h2

theorem findPreviousRecord_none (teams : List String) (sid : String)
    (hids : ∀ r ∈ teams, ∀ j, parse r = some j → idsNonString j = true) :
    findPreviousRecord teams sid = none := by
  induction teams with
  | nil => rfl
  | cons raw rest ih =>
    have hrest : ∀ r ∈ rest, ∀ j, parse r = some j → idsNonString j = true :=
      fun r hr j hj => hids r (List.mem_cons_of_mem _ hr) j hj
    unfold findPreviousRecord
    rcases hp : parse raw with _ | j
    · exact ih hrest
    · have hj := hids raw (List.mem_cons_self _ _) j hp
      have hm := @recordMatches_false_of_ids j sid hj
      cases j <;> dsimp only
      case null => exact ih hrest
      all_goals simp only [hm, Bool.false_eq_true, if_false]
      all_goals exact ih hrest

/-- C10: the prior-record lookup coerces the Team ID value to a string and
compares it with `===`; when every stored record's `data.submissionId` and
`data.responseId` are non-strings (for example JSON numbers), no record ever
matches and the request answers 404 with the store unchanged — even when the
identifiers are numerically equal to the Team ID. -/
theorem c10_nonstring_ids_404 (raw : String) (st : Store) (json : Js)
    (fields : List Js) (em ph sid : String)
    (hp : parse raw = some json)
    (hpre : teamsPrelude json = .ok (.inr (fields, em, ph, sid)))
    (hids : ∀ r ∈ st.teams, ∀ j, parse r = some j → idsNonString j = true) :
    teamsPOST true raw st = (respPrevNotFound, st) := by
  have hnone := findPreviousRecord_none st.teams sid hids
  have hbody : teamsBody json st.teams = .ok (respPrevNotFound, none) := by
    simp only [teamsBody, hpre, hnone]
  have hrun := teamsPOST_eq st hp
  rw [hbody] at hrun
  dsimp only at hrun
  exact hrun

set_option maxRecDepth 100000 in
/-- C10 witness: the Team ID value is the JSON number 42 and the stored record's
identifiers are the JSON number 42 — numerically equal, coerced to the string
"42" — yet the request answers 404. -/
theorem c10_nonstring_ids_404_witness :
    teamsPOST true (stringify updPayloadNumericId) ⟨[], [stringify numericIdRec]⟩ =
      (respPrevNotFound, ⟨[], [stringify numericIdRec]⟩) :=
  c10_nonstring_ids_404 (stringify updPayloadNumericId) ⟨[], [stringify numericIdRec]⟩
    updPayloadNumericId numericIdFields "a@x.com" "111" "42" rfl rfl (by
      intro r hr j hj
      have hr1 : r = stringify numericIdRec := List.mem_singleton.mp hr
      subst hr1
      have hparse : parse (stringify numericIdRec) = some numericIdRec := rfl
      rw [hparse] at hj
      injection hj with hj
      rw [← hj]
      rfl)

/-- C6 witness: appending a field with the fresh label "L" to an empty merged
field list grows it to length one. -/
theorem c6_fresh_label_appends_witness :
    mergeOne (.obj [("data", .obj [("fields", .arr [])])])
        (.obj [("label", .str "L"), ("value", .str "v1"), ("key", .str "k1")]) =
      .ok (setFields (.obj [("data", .obj [("fields", .arr [])])])
        (.arr (([] : List Js) ++
          [Js.obj [("label", .str "L"), ("value", .str "v1"), ("key", .str "k1")]]))) ∧
    (([] : List Js) ++
        [Js.obj [("label", .str "L"), ("value", .str "v1"), ("key", .str "k1")]]).length =
      ([] : List Js).length + 1 :=
  c6_fresh_label_appends [("data", .obj [("fields", .arr [])])] (.obj [("fields", .arr [])])
    [] [("label", .str "L"), ("value", .str "v1"), ("key", .str "k1")] (.str "L")
    rfl (fun h => Js.noConfusion h) rfl rfl rfl rfl

/-- C9 witness: the stored field has key "oldkey", the matching update field has
no key, and after the merge the field's key is gone. -/
theorem c9_key_lost_witness :
    mergeOne (.obj [("data", .obj [("fields", .arr
        [.obj [("label", .str "L"), ("key", .str "oldkey"), ("value", .str "v0")]])])])
        (.obj [("label", .str "L"), ("value", .str "v2")]) =
      .ok (setFields (.obj [("data", .obj [("fields", .arr
          [.obj [("label", .str "L"), ("key", .str "oldkey"), ("value", .str "v0")]])])])
        (.arr ([Js.obj [("label", .str "L"), ("key", .str "oldkey"), ("value", .str "v0")]].set 0
          (updateExistingField
            (.obj [("label", .str "L"), ("key", .str "oldkey"), ("value", .str "v0")])
            (.obj [("label", .str "L"), ("value", .str "v2")]))))) ∧
    jsMemT (updateExistingField
        (.obj [("label", .str "L"), ("key", .str "oldkey"), ("value", .str "v0")])
        (.obj [("label", .str "L"), ("value", .str "v2")])) "key" = none :=
  c9_key_lost [("data", .obj [("fields", .arr
      [.obj [("label", .str "L"), ("key", .str "oldkey"), ("value", .str "v0")]])])]
    (.obj [("fields", .arr
      [.obj [("label", .str "L"), ("key", .str "oldkey"), ("value", .str "v0")]])])
    [.obj [("label", .str "L"), ("key", .str "oldkey"), ("value", .str "v0")]]
    [("label", .str "L"), ("value", .str "v2")]
    [("label", .str "L"), ("key", .str "oldkey"), ("value", .str "v0")]
    (.str "L") (.str "oldkey") 0
    rfl (fun h => Js.noConfusion h) rfl rfl rfl rfl rfl rfl rfl

/-- C7 witness: with labels "XABY" and "AB" and query "AB", the first field wins
by substring containment although only the second is an exact match. -/
theorem c7_findByLabel_witness :
    findFieldByLabelL [Js.obj [("label", Js.str "XABY")], Js.obj [("label", Js.str "AB")]] "AB" =
      .ok ([Js.obj [("label", Js.str "XABY")], Js.obj [("label", Js.str "AB")]].find?
        (labelSubstrMatch "AB")) ∧
    [Js.obj [("label", Js.str "XABY")], Js.obj [("label", Js.str "AB")]].find?
        (labelSubstrMatch "AB") = some (Js.obj [("label", Js.str "XABY")]) := by
  constructor
  · exact (c7_findByLabel "AB").2.2.2 _ (by decide)
  · rfl
